import Mathlib

/-!
Verification development for the sex-equity clinical-trials repository.

The repository consists of two pipelines:
* `scripts/starter.py` — data cleaning, categorization (sex, disease, phase,
  GII tertiles), an equity analysis against a fixed population ratio, and a
  best-effort eligibility fetch loop;
* `scripts/convert_to_jama_format.py` — a regex-based markdown section
  extractor and renderer producing a journal-formatted document.

Strings are embedded as `List Char` (`Str`).  The Python regex substitutions
used by the converter (`re.sub` with lazy groups) are embedded as explicit
left-to-right scanners; scanners whose recursion is not structural use a fuel
parameter, with fuel `s.length` (each scanning step consumes at least one
character, so this fuel is always sufficient).  The external chi-square
routine (`scipy.stats.chi2_contingency`) is not embedded; the embedding
records the exact 2x2 table the code passes to it.  The remote registry API
of `fetch_eligibility` is embedded as an environment returning `Except`.
-/

/-- Python strings are embedded as lists of characters. -/
abbrev Str := List Char

/-- Literal helper: the character list of a Lean string literal. -/
def strL (s : String) : Str := s.toList

/-- Python `str.upper()` (ASCII fragment, which covers every constant the
scripts compare against). -/
def pyUpper (s : Str) : Str := s.map Char.toUpper

/-- `isPre p s` holds when `p` is a prefix of `s` (used to embed anchored
regex literals and Python slicing checks). -/
def isPre : Str → Str → Bool
  | [], _ => true
  | _ :: _, [] => false
  | p :: pt, c :: ct => p = c && isPre pt ct

/-- Python's substring test `pat in s` on strings: `pat` occurs contiguously
inside `s`. -/
def containsSub (pat : Str) : Str → Bool
  | [] => isPre pat []
  | c :: rest => isPre pat (c :: rest) || containsSub pat rest

/-- Python whitespace (`\s` of `re`, and `str.strip()`), ASCII fragment. -/
def pyIsSpace (c : Char) : Bool :=
  c = ' ' || c = '\t' || c = '\n' || c = '\r' || c = '\x0b' || c = '\x0c'

/-- Python `str.strip()`: remove leading and trailing whitespace. -/
def pyStrip (s : Str) : Str :=
  ((s.dropWhile pyIsSpace).reverse.dropWhile pyIsSpace).reverse

/-- Number of maximal runs of non-whitespace characters: the length of
`re.findall(r'\S+', s)`. -/
def countTok (s : Str) : ℕ :=
  (s.foldl
    (fun st c =>
      if pyIsSpace c then (st.1, false)
      else (st.1 + (if st.2 then 0 else 1), true))
    ((0 : ℕ), false)).1

/-!  ### starter.py: categorizers  -/

/-- `standardize_phase` from `scripts/starter.py` (lines 55-73).  `none`
plays the role of a missing (NaN) value. -/
def standardize_phase : Option Str → String
  | none => "Unknown"
  | some p =>
    if p = strL "Unknown" then "Unknown"
    else
      let v := pyUpper p
      if containsSub (strL "PHASE 1") v || containsSub (strL "PHASE I") v then "Phase 1"
      else if containsSub (strL "PHASE 2") v || containsSub (strL "PHASE II") v then "Phase 2"
      else if containsSub (strL "PHASE 3") v || containsSub (strL "PHASE III") v then "Phase 3"
      else if containsSub (strL "PHASE 4") v || containsSub (strL "PHASE IV") v then "Phase 4"
      else if containsSub (strL "EARLY") v then "Early Phase"
      else if containsSub (strL "NOT APPLICABLE") v then "Not Applicable"
      else "Other"

/-- `categorize_by_sex` from `scripts/starter.py` (lines 87-101). -/
def categorize_by_sex : Option Str → String
  | none => "Unknown"
  | some sv =>
    if sv = strL "Unknown" then "Unknown"
    else
      let v := pyUpper sv
      if v = strL "FEMALE" || v = strL "F" then "Female Only"
      else if v = strL "MALE" || v = strL "M" then "Male Only"
      else if containsSub (strL "FEMALE") v && containsSub (strL "MALE") v then "Both Sexes"
      else if containsSub (strL "ALL") v then "Both Sexes"
      else "Unknown"

/-- The `disease_categories` dictionary of `categorize_disease`
(`scripts/starter.py` lines 117-126), in its fixed iteration order. -/
def disease_categories : List (String × List Str) :=
  [("COVID-19", [strL "COVID", strL "SARS-COV-2", strL "CORONAVIRUS", strL "CORONA VIRUS"]),
   ("HIV/AIDS", [strL "HIV", strL "AIDS", strL "HUMAN IMMUNODEFICIENCY VIRUS"]),
   ("Cancer", [strL "CANCER", strL "TUMOR", strL "NEOPLASM", strL "CARCINOMA",
               strL "LEUKEMIA", strL "LYMPHOMA", strL "ONCOLOGY"]),
   ("Cardiovascular", [strL "HEART", strL "CARDIAC", strL "CARDIOVASCULAR",
                       strL "STROKE", strL "HYPERTENSION"]),
   ("Diabetes", [strL "DIABETES", strL "DIABETIC"]),
   ("Mental Health", [strL "PSYCHIATRIC", strL "DEPRESSION", strL "ANXIETY",
                      strL "SCHIZOPHRENIA", strL "BIPOLAR", strL "MENTAL"]),
   ("Respiratory", [strL "ASTHMA", strL "COPD", strL "LUNG", strL "PULMONARY",
                    strL "RESPIRATORY"]),
   ("Infectious Disease", [strL "INFECTION", strL "INFECTIOUS", strL "BACTERIAL",
                           strL "VIRAL", strL "FUNGAL", strL "MALARIA", strL "TUBERCULOSIS"])]

/-- The `for category, keywords in disease_categories.items()` loop of
`categorize_disease`: return the first category with a matching keyword. -/
def diseaseLoop : List (String × List Str) → Str → String
  | [], _ => "Other"
  | (cat, kws) :: rest, conds =>
    if kws.any (fun k => containsSub k conds) then cat else diseaseLoop rest conds

/-- `categorize_disease` from `scripts/starter.py` (lines 110-133). -/
def categorize_disease : Option Str → String
  | none => "Unknown"
  | some conds => diseaseLoop disease_categories (pyUpper conds)

/-!  ### starter.py: GII tertiles  -/

/-- Insertion into a sorted rational list. -/
def insertQ (x : ℚ) : List ℚ → List ℚ
  | [] => [x]
  | y :: t => if x ≤ y then x :: y :: t else y :: insertQ x t

/-- Insertion sort on rationals (ascending), modelling the order statistics
pandas uses for `Series.quantile`. -/
def sortQ : List ℚ → List ℚ := List.foldr insertQ []

/-- `pandas.Series.quantile(q)` with the default linear interpolation:
on sorted values `x_0..x_(n-1)`, position `q*(n-1) = i + frac` gives
`x_i + frac*(x_(i+1) - x_i)`. -/
def pyQuantile (q : ℚ) (xs : List ℚ) : ℚ :=
  let s := sortQ xs
  let n := s.length
  if n = 0 then 0
  else
    let pos : ℚ := q * ((n : ℚ) - 1)
    let i : ℕ := (⌊pos⌋ : ℤ).toNat
    let frac : ℚ := pos - (i : ℚ)
    let lo := s.getD i 0
    let hi := s.getD (min (i + 1) (n - 1)) 0
    lo + frac * (hi - lo)

/-- `categorize_gii` from `scripts/starter.py` (lines 151-159); it closes
over the two tertile thresholds computed from the run's dataset. -/
def categorize_gii (lowThreshold highThreshold : ℚ) : Option ℚ → String
  | none => "Unknown"
  | some v =>
    if v ≤ lowThreshold then "Low GII"
    else if v ≤ highThreshold then "Medium GII"
    else "High GII"

/-- The `low_threshold` of the run: `gii_data.quantile(0.33)`
(`scripts/starter.py` line 148). -/
def giiLowThreshold (data : List ℚ) : ℚ := pyQuantile (33 / 100) data

/-- The `high_threshold` of the run: `gii_data.quantile(0.67)`
(`scripts/starter.py` line 149). -/
def giiHighThreshold (data : List ℚ) : ℚ := pyQuantile (67 / 100) data

/-- The GII category a raw GII value receives in a run whose dataset of valid
GII values is `data` (`scripts/starter.py` lines 143-161). -/
def giiCategoryInRun (data : List ℚ) (v : ℚ) : String :=
  categorize_gii (giiLowThreshold data) (giiHighThreshold data) (some v)

/-!  ### starter.py: equity analysis  -/

/-- A row of `df_clean` as seen by `analyze_sex_representation_equity`:
only the two derived categorical columns are consulted. -/
structure Trial where
  sexCategory : String
  diseaseCategory : String

/-- `EXPECTED_FEMALE_RATIO = 0.508` (`scripts/starter.py` line 525),
embedded as the exact rational the literal denotes. -/
def EXPECTED_FEMALE_RATIO : ℚ := 508 / 1000

/-- The per-disease record built by `analyze_sex_representation_equity`
(`scripts/starter.py` lines 530-561).  `contingency` is the exact 2x2 table
`[observed, expected]` the code hands to `scipy.stats.chi2_contingency`; the
chi-square statistic itself is computed by that external routine and is not
re-embedded. -/
structure EquityResult where
  total_trials : ℕ
  both_sex_trials : ℕ
  female_only_trials : ℕ
  male_only_trials : ℕ
  total_potential_participants : ℕ
  expected_female : ℚ
  actual_female : ℕ
  observed_row : List ℚ
  expected_row : List ℚ
  contingency : List (List ℚ)
  potential_female_ratio : ℚ

/-- The body of the `for disease in df['Disease_Category'].unique()` loop of
`analyze_sex_representation_equity` (`scripts/starter.py` lines 530-561). -/
def analyze_sex_representation_equity_for (df : List Trial) (disease : String) : EquityResult :=
  let disease_trials := df.filter (fun t => t.diseaseCategory = disease)
  let total_both_sex := (disease_trials.filter (fun t => t.sexCategory = "Both Sexes")).length
  let female_only := (disease_trials.filter (fun t => t.sexCategory = "Female Only")).length
  let male_only := (disease_trials.filter (fun t => t.sexCategory = "Male Only")).length
  let total_potential := total_both_sex * 2 + female_only + male_only
  let expected : ℚ := (total_potential : ℚ) * EXPECTED_FEMALE_RATIO
  let actual := total_both_sex + female_only
  let observed : List ℚ := [(actual : ℚ), (total_potential : ℚ) - (actual : ℚ)]
  let expectedR : List ℚ := [expected, (total_potential : ℚ) - expected]
  { total_trials := disease_trials.length
    both_sex_trials := total_both_sex
    female_only_trials := female_only
    male_only_trials := male_only
    total_potential_participants := total_potential
    expected_female := expected
    actual_female := actual
    observed_row := observed
    expected_row := expectedR
    contingency := [observed, expectedR]
    potential_female_ratio := (actual : ℚ) / (total_potential : ℚ) }

/-!  ### starter.py: eligibility fetching  -/

/-- A fragment of Python values, enough for the JSON navigated by
`fetch_eligibility`. -/
inductive PyVal where
  | str : String → PyVal
  | list : List PyVal → PyVal
  | dict : List (String × PyVal) → PyVal

/-- Python `value[key]` on a decoded JSON object: raises (`Except.error`) on
a missing key or a non-dict value. -/
def pyIndex (v : PyVal) (k : String) : Except String PyVal :=
  match v with
  | .dict l =>
    match l.lookup k with
    | some x => Except.ok x
    | none => Except.error "KeyError"
  | _ => Except.error "TypeError"

/-- Python `value[i]` on a decoded JSON list: raises on out-of-range or a
non-list value. -/
def pyAt (v : PyVal) (i : ℕ) : Except String PyVal :=
  match v with
  | .list l =>
    match l.get? i with
    | some x => Except.ok x
    | none => Except.error "IndexError"
  | _ => Except.error "TypeError"

/-- Python `value.get(key, default)` on a dict, expecting a string result. -/
def pyGetStr (v : PyVal) (k : String) (dflt : String) : Except String String :=
  match v with
  | .dict l =>
    match l.lookup k with
    | some (.str s) => Except.ok s
    | some _ => Except.error "TypeError"
    | none => Except.ok dflt
  | _ => Except.error "AttributeError"

/-- The outcome of `requests.get(url)`: either an exception or a response
whose `.json()` may itself raise. -/
structure HttpResponse where
  json : Except String PyVal

/-- The remote clinicaltrials.gov registry, as an environment mapping an NCT
id to the outcome of the HTTP request for it. -/
structure Registry where
  get : String → Except String HttpResponse

/-- The `try` body of `fetch_eligibility` (`scripts/starter.py` lines
168-173): request, JSON decoding, and the nested field lookups, any of which
may raise. -/
def fetchBody (env : Registry) (nct : String) : Except String String := do
  let resp ← env.get nct
  let data ← resp.json
  let a ← pyIndex data "FullStudiesResponse"
  let b ← pyIndex a "FullStudies"
  let c ← pyAt b 0
  let d ← pyIndex c "Study"
  let e ← pyIndex d "ProtocolSection"
  let f ← pyIndex e "EligibilityModule"
  pyGetStr f "EligibilityCriteria" ""

/-- `fetch_eligibility` from `scripts/starter.py` (lines 167-176): the
`except` clause turns any exception into the empty string. -/
def fetch_eligibility (env : Registry) (nct : String) : String :=
  match fetchBody env nct with
  | Except.ok s => s
  | Except.error _ => ""

/-- The batch loop of `fetch_eligibility_data` (`scripts/starter.py` lines
581-584): one `(nct_id, eligibility_text)` record per id, in order. -/
def fetch_eligibility_data (env : Registry) (nctIds : List String) : List (String × String) :=
  nctIds.map (fun i => (i, fetch_eligibility env i))

/-!  ### convert_to_jama_format.py: `clean_markdown` and `count_words`

Each `re.sub` pass is a left-to-right scanner.  A failing match attempt
advances one character, as `re.sub` does.  Lazy groups (`(.*?)`) take the
first possible closing delimiter; `.` does not match a newline (no `DOTALL`
on these patterns).  -/

/-- Closing search for `\*\*(.*?)\*\*`: the lazy group up to the first
`**`, failing at a newline or the end.  Returns (group, rest after close). -/
def boldClose : Str → Option (Str × Str)
  | [] => none
  | [_] => none
  | c1 :: c2 :: rest =>
    if c1 = '*' ∧ c2 = '*' then some ([], rest)
    else if c1 = '\n' then none
    else (boldClose (c2 :: rest)).map (fun p => (c1 :: p.1, p.2))

/-- Fuelled scanner for `re.sub(r'\*\*(.*?)\*\*', r'\1', s)`. -/
def boldGo : ℕ → Str → Str
  | 0, s => s
  | _ + 1, [] => []
  | _ + 1, [c] => [c]
  | f + 1, c1 :: c2 :: rest =>
    if c1 = '*' ∧ c2 = '*' then
      match boldClose rest with
      | some (g, r) => g ++ boldGo f r
      | none => c1 :: boldGo f (c2 :: rest)
    else c1 :: boldGo f (c2 :: rest)

/-- The bold-marker removal pass of `clean_markdown`
(`scripts/convert_to_jama_format.py` line 72). -/
def boldSub (s : Str) : Str := boldGo s.length s

/-- Closing search for `\*(.*?)\*`: the lazy group up to the first `*`,
failing at a newline or the end. -/
def italicClose : Str → Option (Str × Str)
  | [] => none
  | c :: rest =>
    if c = '*' then some ([], rest)
    else if c = '\n' then none
    else (italicClose rest).map (fun p => (c :: p.1, p.2))

/-- Fuelled scanner for `re.sub(r'\*(.*?)\*', r'\1', s)`. -/
def italicGo : ℕ → Str → Str
  | 0, s => s
  | _ + 1, [] => []
  | f + 1, c :: rest =>
    if c = '*' then
      match italicClose rest with
      | some (g, r) => g ++ italicGo f r
      | none => c :: italicGo f rest
    else c :: italicGo f rest

/-- The italic-marker removal pass of `clean_markdown` (line 74). -/
def italicSub (s : Str) : Str := italicGo s.length s

/-- Closing search for the `\)` of `\[(.*?)\]\(.*?\)`: first `)` in the
line; returns the rest after it. -/
def parenClose : Str → Option Str
  | [] => none
  | c :: rest =>
    if c = ')' then some rest
    else if c = '\n' then none
    else parenClose rest

/-- Closing search for `\](\(.*?\))` with backtracking: find the first `]`
that is immediately followed by `(` with a closing `)` in the line; a `]`
that cannot complete the pattern becomes part of the lazy group. -/
def linkClose : Str → Option (Str × Str)
  | [] => none
  | c :: rest =>
    if c = '\n' then none
    else if c = ']' ∧ rest.head? = some '(' then
      match parenClose rest.tail with
      | some r => some ([], r)
      | none => (linkClose rest).map (fun p => (c :: p.1, p.2))
    else (linkClose rest).map (fun p => (c :: p.1, p.2))

/-- Fuelled scanner for `re.sub(r'\[(.*?)\]\(.*?\)', r'\1', s)`. -/
def linkGo : ℕ → Str → Str
  | 0, s => s
  | _ + 1, [] => []
  | f + 1, c :: rest =>
    if c = '[' then
      match linkClose rest with
      | some (g, r) => g ++ linkGo f r
      | none => c :: linkGo f rest
    else c :: linkGo f rest

/-- The reference-link removal pass of `clean_markdown` (line 76). -/
def linkSub (s : Str) : Str := linkGo s.length s

/-- Fuelled scanner for `re.sub(r'\^(\d+)\^', r'\1', s)`. -/
def supGo : ℕ → Str → Str
  | 0, s => s
  | _ + 1, [] => []
  | f + 1, c :: rest =>
    if c = '^' then
      let ds := rest.takeWhile Char.isDigit
      let rest2 := rest.dropWhile Char.isDigit
      if ds ≠ [] ∧ rest2.head? = some '^' then ds ++ supGo f rest2.tail
      else c :: supGo f rest
    else c :: supGo f rest

/-- The superscript-notation removal pass of `clean_markdown` (line 78). -/
def supSub (s : Str) : Str := supGo s.length s

/-- `text.replace('\\', '')` of `clean_markdown` (line 80). -/
def stripBackslash (s : Str) : Str := s.filter (fun c => c ≠ '\\')

/-- `clean_markdown` from `scripts/convert_to_jama_format.py` (lines 69-81):
bold, italic, links, superscripts, then backslash removal, in order. -/
def cleanMarkdown (s : Str) : Str :=
  stripBackslash (supSub (linkSub (italicSub (boldSub s))))

/-- `count_words` from `scripts/convert_to_jama_format.py` (lines 62-67):
`len(re.findall(r'\S+', clean_markdown(text)))`. -/
def count_words (s : Str) : ℕ := countTok (cleanMarkdown s)

/-!  ### convert_to_jama_format.py: `split_into_sections`  -/

/-- The greedy `\s*\n` after a heading literal: consume a whitespace run
whose last consumed character is the last newline of the run; return the
text after it, or `none` when the run contains no newline. -/
def wsNl : Str → Option Str
  | [] => none
  | c :: rest =>
    if c = '\n' then
      match wsNl rest with
      | some r => some r
      | none => some rest
    else if pyIsSpace c then wsNl rest
    else none

/-- The lazy `(.*?)(?=\n##|\Z)` with `DOTALL`: everything up to the first
`\n##`, or the whole rest of the text. -/
def untilSep : Str → Str
  | [] => []
  | c :: rest =>
    if c = '\n' ∧ isPre (strL "##") rest then []
    else c :: untilSep rest

/-- Try each heading alternative of one section pattern at the current
position: the literal must be a prefix here and `\s*\n` must follow. -/
def tryAt : List Str → Str → Option Str
  | [], _ => none
  | h :: hs, s =>
    if isPre h s then
      match wsNl (s.drop h.length) with
      | some b => some b
      | none => tryAt hs s
    else tryAt hs s

/-- `re.search` for one section pattern
`heading\s*\n(.*?)(?=\n##|\Z)` (with `re.DOTALL`): scan positions left to
right; on a match return `match.group(1).strip()` as the code stores it. -/
def searchSec (heads : List Str) : Str → Option Str
  | [] => none
  | c :: rest =>
    match tryAt heads (c :: rest) with
    | some b => some (pyStrip (untilSep b))
    | none => searchSec heads rest

/-- `re.search(r'# (.*?)(?:\n|$)', content)`: first `# ` anywhere, then the
rest of that line (no `strip` is applied to the title). -/
def searchTitle : Str → Option Str
  | [] => none
  | [_] => none
  | c1 :: c2 :: rest =>
    if c1 = '#' ∧ c2 = ' ' then some (rest.takeWhile (fun c => c ≠ '\n'))
    else searchTitle (c2 :: rest)

/-- The `section_patterns` dictionary of `split_into_sections`
(`scripts/convert_to_jama_format.py` lines 94-105), in order; the
`introduction` pattern has the two heading alternatives. -/
def sectionPatterns : List (String × List Str) :=
  [("title_page", [strL "## Title Page"]),
   ("abstract", [strL "## Abstract"]),
   ("introduction", [strL "## Background", strL "## Introduction"]),
   ("methods", [strL "## Methods"]),
   ("results", [strL "## Results"]),
   ("discussion", [strL "## Discussion"]),
   ("conclusion", [strL "## Conclusions"]),
   ("abbreviations", [strL "## List of abbreviations"]),
   ("declarations", [strL "## Declarations"]),
   ("references", [strL "## References"])]

/-- `split_into_sections` from `scripts/convert_to_jama_format.py` (lines
83-113): the optional title entry followed by the found named sections, in
dictionary insertion order. -/
def split_into_sections (content : Str) : List (String × Str) :=
  (match searchTitle content with
   | some t => [("title", t)]
   | none => []) ++
  sectionPatterns.filterMap
    (fun p => (searchSec p.2 content).map (fun b => (p.1, b)))

/-!  ### convert_to_jama_format.py: structured abstract rendering  -/

/-- Closing search for `(.*?)\*\*:` inside
`\*\*(.*?)\*\*:\s*(.*?)(?=\n\n\*\*|\Z)` (with `re.DOTALL`, so the label may
span newlines): the lazy label up to the first `**:`. -/
def absClose : Str → Option (Str × Str)
  | [] => none
  | c :: rest =>
    if c = '*' ∧ isPre (strL "*:") rest then some ([], rest.drop 2)
    else (absClose rest).map (fun p => (c :: p.1, p.2))

/-- The lazy `(.*?)(?=\n\n\*\*|\Z)` content group: everything up to the
first `\n\n**`, returning it and the rest including the separator (where
`re.findall` resumes scanning). -/
def absSepSplit : Str → Str × Str
  | [] => ([], [])
  | c :: rest =>
    if c = '\n' ∧ isPre (strL "\n**") rest then ([], c :: rest)
    else
      let p := absSepSplit rest
      (c :: p.1, p.2)

/-- Fuelled scanner for
`re.findall(r'\*\*(.*?)\*\*:\s*(.*?)(?=\n\n\*\*|\Z)', s, re.DOTALL)`:
the list of (label, content) pairs. -/
def absGo : ℕ → Str → List (Str × Str)
  | 0, _ => []
  | _ + 1, [] => []
  | f + 1, c :: rest =>
    if c = '*' ∧ rest.head? = some '*' then
      match absClose rest.tail with
      | some (label, afterColon) =>
        let body := afterColon.dropWhile pyIsSpace
        let p := absSepSplit body
        (label, p.1) :: absGo f p.2
      | none => absGo f rest
    else absGo f rest

/-- The `abstract_parts` of `process_abstract_page`
(`scripts/convert_to_jama_format.py` line 210). -/
def abstractParts (s : Str) : List (Str × Str) := absGo s.length s

/-- One rendered paragraph of the structured abstract: the bolded run
`f"{part}: "` and the plain run `clean_markdown(content.strip())`
(`scripts/convert_to_jama_format.py` lines 211-222). -/
structure AbsPara where
  boldText : Str
  bodyText : Str
deriving DecidableEq

/-- The paragraphs `process_abstract_page` adds for the structured abstract
body: one per `abstract_parts` entry; when the `abstract` key is absent the
function returns early and renders nothing. -/
def process_abstract (sections : List (String × Str)) : List AbsPara :=
  match sections.lookup "abstract" with
  | none => []
  | some a =>
    (abstractParts a).map (fun p => ⟨p.1 ++ strL ": ", cleanMarkdown (pyStrip p.2)⟩)

/-!  ### Auxiliary counting and environment definitions used in statements  -/

/-- Number of rows of a given disease category with `Sex_Category` equal to
`Both Sexes`, counted in one pass. -/
def countBoth (df : List Trial) (d : String) : ℕ :=
  (df.filter (fun t => decide (t.diseaseCategory = d) && decide (t.sexCategory = "Both Sexes"))).length

/-- Number of rows of a given disease category with `Sex_Category` equal to
`Female Only`, counted in one pass. -/
def countFemaleOnly (df : List Trial) (d : String) : ℕ :=
  (df.filter (fun t => decide (t.diseaseCategory = d) && decide (t.sexCategory = "Female Only"))).length

/-- Number of rows of a given disease category with `Sex_Category` equal to
`Male Only`, counted in one pass. -/
def countMaleOnly (df : List Trial) (d : String) : ℕ :=
  (df.filter (fun t => decide (t.diseaseCategory = d) && decide (t.sexCategory = "Male Only"))).length

/-- A registry environment in which every request raises, standing for a
network failure of `requests.get`. -/
def errRegistry : Registry := ⟨fun _ => Except.error "ConnectionError"⟩

/-!  ## Theorems  -/

/-!  ### Helper lemmas about prefixes and substrings  -/

theorem isPre_iff (p s : Str) : isPre p s = true ↔ ∃ t, s = p ++ t := by
  induction p generalizing s with
  | nil => simp [isPre]
  | cons a pt ih =>
    cases s with
    | nil => simp [isPre]
    | cons c ct =>
      simp only [isPre, Bool.and_eq_true, decide_eq_true_eq, ih, List.cons_append]
      constructor
      · rintro ⟨rfl, t, rfl⟩
        exact ⟨t, rfl⟩
      · rintro ⟨t, h⟩
        obtain ⟨h1, h2⟩ := List.cons.injEq .. ▸ h
        exact ⟨h1.symm ▸ rfl, t, h2⟩

theorem containsSub_iff (p s : Str) :
    containsSub p s = true ↔ ∃ u v, s = u ++ p ++ v := by
  induction s with
  | nil =>
    simp only [containsSub, isPre_iff]
    constructor
    · rintro ⟨t, h⟩
      exact ⟨[], t, by simpa using h⟩
    · rintro ⟨u, v, h⟩
      refine ⟨v, ?_⟩
      rcases List.append_eq_nil.mp (List.append_eq_nil.mp h.symm).1 with ⟨rfl, rfl⟩
      simpa using h
  | cons c ct ih =>
    simp only [containsSub, Bool.or_eq_true, isPre_iff, ih]
    constructor
    · rintro (⟨t, h⟩ | ⟨u, v, h⟩)
      · exact ⟨[], t, by simpa using h⟩
      · exact ⟨c :: u, v, by simp [h]⟩
    · rintro ⟨u, v, h⟩
      cases u with
      | nil => exact Or.inl ⟨v, by simpa using h⟩
      | cons x xu =>
        right
        obtain ⟨h1, h2⟩ := List.cons.injEq .. ▸ h
        exact ⟨xu, v, h2⟩

theorem containsSub_trans (a b c : Str) (h1 : containsSub a b = true)
    (h2 : containsSub b c = true) : containsSub a c = true := by
  rw [containsSub_iff] at h1 h2 ⊢
  obtain ⟨u, v, rfl⟩ := h2
  obtain ⟨u', v', rfl⟩ := h1
  exact ⟨u ++ u', v' ++ v, by simp⟩

theorem containsSub_length (p s : Str) (h : containsSub p s = true) :
    p.length ≤ s.length := by
  rw [containsSub_iff] at h
  obtain ⟨u, v, rfl⟩ := h
  simp [List.length_append]
  omega

/-!  ### C9: `PHASE I` substring check shadows the roman numerals  -/

/-- C9: for every non-null phase text whose uppercased form contains the
substring `PHASE I` — which includes `PHASE II`, `PHASE III` and `PHASE IV`
— `standardize_phase` returns `Phase 1`, because the Phase 1 substring check
is evaluated before the Phase 2, 3 and 4 checks. -/
theorem standardize_phase_phaseI (s : Str)
    (h : containsSub (strL "PHASE I") (pyUpper s) = true) :
    standardize_phase (some s) = "Phase 1" := by
  have hunk : ¬ s = strL "Unknown" := by
    rintro rfl
    exact absurd h (by decide)
  simp [standardize_phase, hunk, h]

/-- C9 witness: `Phase III` is standardized to `Phase 1`. -/
theorem standardize_phase_phaseI_witness :
    containsSub (strL "PHASE I") (pyUpper (strL "Phase III")) = true ∧
    standardize_phase (some (strL "Phase III")) = "Phase 1" :=
  ⟨by decide, standardize_phase_phaseI (strL "Phase III") (by decide)⟩

/-!  ### C10: any non-exact `FEMALE`-containing value is `Both Sexes`  -/

/-- C10: a non-null sex value whose uppercased form contains `FEMALE` without
being exactly `FEMALE` is categorized `Both Sexes`: `MALE` is a substring of
`FEMALE`, so the combined `FEMALE`-and-`MALE` branch fires. -/
theorem categorize_by_sex_female_substring (s : Str)
    (h1 : containsSub (strL "FEMALE") (pyUpper s) = true)
    (h2 : pyUpper s ≠ strL "FEMALE") :
    categorize_by_sex (some s) = "Both Sexes" := by
  have hlen : (strL "FEMALE").length ≤ (pyUpper s).length := containsSub_length _ _ h1
  have hunk : ¬ s = strL "Unknown" := by
    rintro rfl
    exact absurd h1 (by decide)
  have hM : containsSub (strL "MALE") (pyUpper s) = true :=
    containsSub_trans _ _ _ (by decide) h1
  have hF : ¬ pyUpper s = strL "F" := by
    intro e
    rw [e] at hlen
    simp [strL] at hlen
  have hMale : ¬ pyUpper s = strL "MALE" := by
    intro e
    rw [e] at h1
    exact absurd h1 (by decide)
  have hMm : ¬ pyUpper s = strL "M" := by
    intro e
    rw [e] at hlen
    simp [strL] at hlen
  simp [categorize_by_sex, hunk, h2, hF, hMale, hMm, h1, hM]

/-- C10 witness: `FEMALE ONLY` is categorized `Both Sexes`, not
`Female Only`. -/
theorem categorize_by_sex_female_substring_witness :
    containsSub (strL "FEMALE") (pyUpper (strL "FEMALE ONLY")) = true ∧
    pyUpper (strL "FEMALE ONLY") ≠ strL "FEMALE" ∧
    categorize_by_sex (some (strL "FEMALE ONLY")) = "Both Sexes" :=
  ⟨by decide, by decide,
    categorize_by_sex_female_substring (strL "FEMALE ONLY") (by decide) (by decide)⟩

/-!  ### C3: first-matching-category semantics of `categorize_disease`  -/

theorem diseaseLoop_eq_find (l : List (String × List Str)) (c : Str) :
    diseaseLoop l c =
      ((l.find? (fun p => p.2.any (fun k => containsSub k c))).map Prod.fst).getD "Other" := by
  induction l with
  | nil => rfl
  | cons p t ih =>
    obtain ⟨cat, kws⟩ := p
    by_cases h : kws.any (fun k => containsSub k c) = true
    · simp [diseaseLoop, List.find?, h]
    · simp only [Bool.not_eq_true] at h
      simp [diseaseLoop, List.find?, h, ih]

/-- C3: for a non-null conditions string `categorize_disease` returns the
first category, in the fixed dictionary order, one of whose keywords occurs
as a substring of the uppercased conditions; with no match it returns
`Other`, and for a missing (NaN) value it returns `Unknown`. -/
theorem categorize_disease_first_match :
    categorize_disease none = "Unknown" ∧
    (∀ s : Str, categorize_disease (some s) =
      ((disease_categories.find?
          (fun p => p.2.any (fun k => containsSub k (pyUpper s)))).map Prod.fst).getD "Other") ∧
    disease_categories.map Prod.fst =
      ["COVID-19", "HIV/AIDS", "Cancer", "Cardiovascular", "Diabetes",
       "Mental Health", "Respiratory", "Infectious Disease"] := by
  refine ⟨rfl, fun s => ?_, rfl⟩
  simp [categorize_disease, diseaseLoop_eq_find]

/-!  ### C2: determinism of the derived categorical columns  -/

/-- C2 counterexample: the same raw GII value 1/2 receives different
`GII_Category` values in two different runs, because the tertile thresholds
are quantiles of the run's dataset.  With dataset `[0, 1]` the low threshold
is 0.33 and 1/2 is `Medium GII`; with dataset `[1/2, 1/2]` the low threshold
is 1/2 and the same value is `Low GII`.  So the derived columns are not
deterministic functions of the raw fields across different datasets. -/
theorem gii_category_not_cross_dataset_deterministic :
    giiCategoryInRun [0, 1] (1/2) = "Medium GII" ∧
    giiCategoryInRun [1/2, 1/2] (1/2) = "Low GII" ∧
    giiCategoryInRun [0, 1] (1/2) ≠ giiCategoryInRun [1/2, 1/2] (1/2) := by
  have hs1 : sortQ [(0:ℚ), 1] = [0, 1] := by norm_num [sortQ, insertQ]
  have hs2 : sortQ [(1:ℚ)/2, 1/2] = [1/2, 1/2] := by norm_num [sortQ, insertQ]
  have hf1 : (⌊(33:ℚ)/100⌋ : ℤ) = 0 :=
    Int.floor_eq_zero_iff.mpr (Set.mem_Ico.mpr ⟨by norm_num, by norm_num⟩)
  have hf2 : (⌊(67:ℚ)/100⌋ : ℤ) = 0 :=
    Int.floor_eq_zero_iff.mpr (Set.mem_Ico.mpr ⟨by norm_num, by norm_num⟩)
  have e1 : giiLowThreshold [0, 1] = 33/100 := by
    simp only [giiLowThreshold, pyQuantile, hs1]
    norm_num [hf1]
  have e2 : giiHighThreshold [0, 1] = 67/100 := by
    simp only [giiHighThreshold, pyQuantile, hs1]
    norm_num [hf2]
  have e3 : giiLowThreshold [1/2, 1/2] = 1/2 := by
    simp only [giiLowThreshold, pyQuantile, hs2]
    norm_num [hf1]
  refine ⟨?_, ?_, ?_⟩
  · simp only [giiCategoryInRun, categorize_gii, e1, e2]
    norm_num
  · simp only [giiCategoryInRun, categorize_gii, e3]
    norm_num
  · simp only [giiCategoryInRun, categorize_gii, e1, e2, e3]
    norm_num
    decide

/-- C2 amended: `Sex_Category`, `Disease_Category` and `Standardized_Phase`
are deterministic pure functions of the row's raw field alone (equal raw
values give equal categories, in any dataset or run); `GII_Category` is a
deterministic pure function of the raw GII value together with the run's
tertile thresholds, so it is deterministic within a run but not across
datasets. -/
theorem derived_columns_deterministic
    (a b : Option Str) (lo hi : ℚ) (x y : Option ℚ)
    (hab : a = b) (hxy : x = y) :
    categorize_by_sex a = categorize_by_sex b ∧
    categorize_disease a = categorize_disease b ∧
    standardize_phase a = standardize_phase b ∧
    categorize_gii lo hi x = categorize_gii lo hi y := by
  subst hab
  subst hxy
  exact ⟨rfl, rfl, rfl, rfl⟩

/-- C2 witness: the determinism statement applied at a concrete row value
and concrete thresholds. -/
theorem derived_columns_deterministic_witness :
    categorize_by_sex (some (strL "ALL")) = categorize_by_sex (some (strL "ALL")) ∧
    categorize_disease (some (strL "Asthma")) = categorize_disease (some (strL "Asthma")) ∧
    standardize_phase (some (strL "Phase 2")) = standardize_phase (some (strL "Phase 2")) ∧
    categorize_gii (33/100) (67/100) (some (1/2)) = categorize_gii (33/100) (67/100) (some (1/2)) := by
  have h := derived_columns_deterministic (some (strL "ALL")) (some (strL "ALL"))
    (33/100) (67/100) (some (1/2)) (some (1/2)) rfl rfl
  exact ⟨h.1, rfl, rfl, h.2.2.2⟩

/-!  ### C5: section extraction is deterministic on unchanged input  -/

/-- C5: running `split_into_sections` twice on the same unchanged input
yields identical section maps. -/
theorem split_into_sections_deterministic (c : Str) (m₁ m₂ : List (String × Str))
    (h₁ : m₁ = split_into_sections c) (h₂ : m₂ = split_into_sections c) :
    m₁ = m₂ := by
  subst h₁
  subst h₂
  rfl

/-- C5 witness: the two runs on a concrete manuscript agree. -/
theorem split_into_sections_deterministic_witness :
    split_into_sections (strL "# T\n## Abstract\nbody") =
      split_into_sections (strL "# T\n## Abstract\nbody") :=
  split_into_sections_deterministic _ _ _ rfl rfl

/-!  ### C6: a section key is present iff its pattern matches  -/

theorem lookup_filterMap_not_mem (c : Str) (n : String) :
    ∀ ps : List (String × List Str), n ∉ ps.map Prod.fst →
      (ps.filterMap (fun p => (searchSec p.2 c).map (fun b => (p.1, b)))).lookup n = none := by
  intro ps
  induction ps with
  | nil => intro _; rfl
  | cons q t ih =>
    intro hn
    obtain ⟨n0, h0⟩ := q
    simp only [List.map_cons, List.mem_cons, not_or] at hn
    obtain ⟨hne, hnt⟩ := hn
    cases e : searchSec h0 c with
    | none => simpa [List.filterMap_cons, e] using ih hnt
    | some b =>
      simp only [List.filterMap_cons, e, Option.map_some']
      rw [List.lookup_cons]
      simp only [beq_eq_false_iff_ne.mpr hne]
      exact ih hnt

theorem lookup_filterMap_mem (c : Str) :
    ∀ (ps : List (String × List Str)) (n : String) (hs : List Str),
      (ps.map Prod.fst).Nodup → (n, hs) ∈ ps →
      (ps.filterMap (fun p => (searchSec p.2 c).map (fun b => (p.1, b)))).lookup n =
        searchSec hs c := by
  intro ps
  induction ps with
  | nil => intro n hs _ hm; exact absurd hm (List.not_mem_nil _)
  | cons q t ih =>
    intro n hs hnd hm
    obtain ⟨n0, h0⟩ := q
    simp only [List.map_cons, List.nodup_cons] at hnd
    obtain ⟨hn0, hndt⟩ := hnd
    rcases List.mem_cons.mp hm with heq | hmt
    · obtain ⟨rfl, rfl⟩ := Prod.mk.injEq .. ▸ heq
      cases e : searchSec hs c with
      | none =>
        simp only [List.filterMap_cons, e]
        exact lookup_filterMap_not_mem c n t hn0
      | some b =>
        simp [List.filterMap_cons, e, List.lookup_cons]
    · have hne : n ≠ n0 := by
        intro e
        subst e
        exact hn0 (List.mem_map_of_mem Prod.fst hmt)
      cases e : searchSec h0 c with
      | none => simpa [List.filterMap_cons, e] using ih n hs hndt hmt
      | some b =>
        simp only [List.filterMap_cons, e, Option.map_some']
        rw [List.lookup_cons]
        simp only [beq_eq_false_iff_ne.mpr hne]
        exact ih n hs hndt hmt

/-- C6: for every markdown content, the map returned by
`split_into_sections` contains a key for a named section (other than
`title`) exactly according to whether that section's fixed pattern matches
the content: the looked-up entry equals the result of the pattern search, so
the key is present iff the search succeeds, and a missing section simply
leaves the key absent, with no error. -/
theorem split_into_sections_presence (c : Str) (n : String) (hs : List Str)
    (hmem : (n, hs) ∈ sectionPatterns) :
    (split_into_sections c).lookup n = searchSec hs c := by
  have hn : n ∈ sectionPatterns.map Prod.fst := List.mem_map_of_mem Prod.fst hmem
  have hnt : n ≠ "title" := by
    intro e
    rw [e] at hn
    revert hn
    decide
  have hnd : (sectionPatterns.map Prod.fst).Nodup := by decide
  unfold split_into_sections
  cases ht : searchTitle c with
  | none => simpa using lookup_filterMap_mem c sectionPatterns n hs hnd hmem
  | some t =>
    simp only [List.singleton_append]
    rw [List.lookup_cons]
    simp only [beq_eq_false_iff_ne.mpr hnt]
    exact lookup_filterMap_mem c sectionPatterns n hs hnd hmem

/-- C6 witness: on a concrete manuscript the `methods` entry equals the
search result (present here), and on one without the heading the key is
absent. -/
theorem split_into_sections_presence_witness :
    ("methods", [strL "## Methods"]) ∈ sectionPatterns ∧
    (split_into_sections (strL "# T\n## Methods\nbody")).lookup "methods" =
      searchSec [strL "## Methods"] (strL "# T\n## Methods\nbody") ∧
    (split_into_sections (strL "# T\nno sections")).lookup "methods" =
      searchSec [strL "## Methods"] (strL "# T\nno sections") :=
  ⟨by decide,
   split_into_sections_presence (strL "# T\n## Methods\nbody") "methods" [strL "## Methods"]
     (by decide),
   split_into_sections_presence (strL "# T\nno sections") "methods" [strL "## Methods"]
     (by decide)⟩

/-!  ### C7: structured abstract rendering on the specified input  -/

/-- C7: on a markdown input whose abstract section is
`**Background**: text`, blank line, `**Results**: more`, the abstract
rendering produces exactly two paragraphs, the first opening with the bolded
label `Background` and the second with the bolded label `Results`, each
followed by its content. -/
theorem abstract_two_paragraphs :
    process_abstract (split_into_sections
        (strL "# Title\n\n## Abstract\n**Background**: text\n\n**Results**: more")) =
      [⟨strL "Background: ", strL "text"⟩, ⟨strL "Results: ", strL "more"⟩] ∧
    (process_abstract (split_into_sections
        (strL "# Title\n\n## Abstract\n**Background**: text\n\n**Results**: more"))).length = 2 := by
  refine ⟨by decide, by decide⟩

/-!  ### C8: one failed eligibility fetch never aborts the batch  -/

/-- C8: whenever the request, the JSON decoding, or the nested field lookup
inside `fetch_eligibility` raises, `fetch_eligibility` returns the empty
string instead of propagating the exception, and the batch loop of
`fetch_eligibility_data` still produces one record per NCT id, the failing
id included (with an empty eligibility text). -/
theorem fetch_eligibility_error_tolerant (env : Registry) (nct : String) (e : String)
    (h : fetchBody env nct = Except.error e) :
    fetch_eligibility env nct = "" ∧
    (∀ ids : List String, (fetch_eligibility_data env ids).length = ids.length) ∧
    (∀ ids : List String, nct ∈ ids → (nct, "") ∈ fetch_eligibility_data env ids) := by
  have h1 : fetch_eligibility env nct = "" := by
    simp [fetch_eligibility, h]
  refine ⟨h1, fun ids => by simp [fetch_eligibility_data], fun ids hm => ?_⟩
  have hmem := List.mem_map_of_mem (fun i => (i, fetch_eligibility env i)) hm
  simp only at hmem
  rw [h1] at hmem
  exact hmem

/-- C8 witness: a registry whose every request raises, applied to a
two-element batch. -/
theorem fetch_eligibility_error_tolerant_witness :
    fetchBody errRegistry "NCT00000001" = Except.error "ConnectionError" ∧
    fetch_eligibility errRegistry "NCT00000001" = "" ∧
    (fetch_eligibility_data errRegistry ["NCT00000001", "NCT00000002"]).length = 2 ∧
    ("NCT00000001", "") ∈ fetch_eligibility_data errRegistry ["NCT00000001", "NCT00000002"] := by
  have h := fetch_eligibility_error_tolerant errRegistry "NCT00000001" "ConnectionError" rfl
  exact ⟨rfl, h.1, h.2.1 _, h.2.2 _ (by simp)⟩

/-!  ### C1: the equity analysis computes the claimed quantities  -/

theorem length_filter_filter (P Q : Trial → Bool) (l : List Trial) :
    ((l.filter P).filter Q).length = (l.filter (fun t => P t && Q t)).length := by
  rw [List.filter_filter, List.filter_congr (fun x _ => Bool.and_comm (Q x) (P x))]

/-- C1: for every disease category,
`analyze_sex_representation_equity` computes
`total_potential_participants = both*2 + female_only + male_only`,
`expected_female = total_potential_participants * 0.508`,
`actual_female = both + female_only`, and hands `chi2_contingency` the 2x2
table `[[observed, total - observed], [expected, total - expected]]`. -/
theorem equity_formulas (df : List Trial) (d : String) :
    (analyze_sex_representation_equity_for df d).total_potential_participants
        = 2 * countBoth df d + countFemaleOnly df d + countMaleOnly df d ∧
    (analyze_sex_representation_equity_for df d).expected_female
        = ((2 * countBoth df d + countFemaleOnly df d + countMaleOnly df d : ℕ) : ℚ) * (508 / 1000) ∧
    (analyze_sex_representation_equity_for df d).actual_female
        = countBoth df d + countFemaleOnly df d ∧
    (analyze_sex_representation_equity_for df d).contingency
        = [[((countBoth df d + countFemaleOnly df d : ℕ) : ℚ),
            ((2 * countBoth df d + countFemaleOnly df d + countMaleOnly df d : ℕ) : ℚ)
              - ((countBoth df d + countFemaleOnly df d : ℕ) : ℚ)],
           [((2 * countBoth df d + countFemaleOnly df d + countMaleOnly df d : ℕ) : ℚ) * (508 / 1000),
            ((2 * countBoth df d + countFemaleOnly df d + countMaleOnly df d : ℕ) : ℚ)
              - ((2 * countBoth df d + countFemaleOnly df d + countMaleOnly df d : ℕ) : ℚ) * (508 / 1000)]] := by
  have hB : ((df.filter (fun t => decide (t.diseaseCategory = d))).filter
      (fun t => decide (t.sexCategory = "Both Sexes"))).length = countBoth df d :=
    length_filter_filter _ _ df
  have hF : ((df.filter (fun t => decide (t.diseaseCategory = d))).filter
      (fun t => decide (t.sexCategory = "Female Only"))).length = countFemaleOnly df d :=
    length_filter_filter _ _ df
  have hM : ((df.filter (fun t => decide (t.diseaseCategory = d))).filter
      (fun t => decide (t.sexCategory = "Male Only"))).length = countMaleOnly df d :=
    length_filter_filter _ _ df
  refine ⟨?_, ?_, ?_, ?_⟩ <;>
    simp only [analyze_sex_representation_equity_for, EXPECTED_FEMALE_RATIO, hB, hF, hM] <;>
    push_cast <;> ring_nf

/-!  ### C4: word count under emphasis wrapping  -/

/-- C4 counterexample: word count is not invariant under emphasis styling in
general.  For `x` = newline, star, space, `b`: `count_words x = 2` (the
lone star and `b` are two tokens), but wrapping gives `**\n* b**`, in which
the bold pass finds no match (its lazy group cannot cross the newline), and
the italic pass then pairs the stars differently, leaving `\n b*` with a
single token: `count_words (**x**) = 1`. -/
theorem count_words_emphasis_counterexample :
    count_words (strL "**" ++ strL "\n* b" ++ strL "**") = 1 ∧
    count_words (strL "\n* b") = 2 ∧
    count_words (strL "**" ++ strL "\n* b" ++ strL "**") ≠ count_words (strL "\n* b") := by
  refine ⟨by decide, by decide, by decide⟩

theorem boldGo_nil (f : ℕ) : boldGo f [] = [] := by cases f <;> rfl

theorem italicGo_nil (f : ℕ) : italicGo f [] = [] := by cases f <;> rfl

theorem boldGo_cons_ne (f : ℕ) (c : Char) (t : Str) (h : c ≠ '*') :
    boldGo (f + 1) (c :: t) = c :: boldGo f t := by
  cases t with
  | nil => simp [boldGo, boldGo_nil]
  | cons c2 r => simp [boldGo, h]

theorem boldGo_no_star (l : Str) (h : '*' ∉ l) :
    ∀ f, l.length ≤ f → boldGo f l = l := by
  induction l with
  | nil => intro f _; exact boldGo_nil f
  | cons c t ih =>
    intro f hf
    cases f with
    | zero => simp at hf
    | succ f' =>
      have hc : c ≠ '*' := fun e => h (by simp [e])
      have ht : '*' ∉ t := fun m => h (List.mem_cons_of_mem c m)
      rw [boldGo_cons_ne f' c t hc, ih ht f' (by simpa using hf)]

theorem boldClose_no_star_no_nl (l : Str) (h1 : '*' ∉ l) (h2 : '\n' ∉ l) :
    boldClose (l ++ ['*', '*']) = some (l, []) := by
  induction l with
  | nil => rfl
  | cons c t ih =>
    have hc : c ≠ '*' := fun e => h1 (by simp [e])
    have hn : c ≠ '\n' := fun e => h2 (by simp [e])
    have ht1 : '*' ∉ t := fun m => h1 (List.mem_cons_of_mem c m)
    have ht2 : '\n' ∉ t := fun m => h2 (List.mem_cons_of_mem c m)
    cases t with
    | nil => simp [boldClose, hc, hn]
    | cons c2 t2 =>
      have hc2 : c2 ≠ '*' := fun e => ht1 (by simp [e])
      simp only [List.cons_append, boldClose, hc, hc2, hn, if_neg, false_and,
        if_false]
      rw [show c2 :: t2.append ['*', '*'] = (c2 :: t2) ++ ['*', '*'] from rfl, ih ht1 ht2]
      rfl

theorem boldClose_no_star_with_nl (l : Str) (h1 : '*' ∉ l) (h2 : '\n' ∈ l) (x : Str) :
    boldClose (l ++ x) = none := by
  induction l with
  | nil => exact absurd h2 (List.not_mem_nil _)
  | cons c t ih =>
    have hc : c ≠ '*' := fun e => h1 (by simp [e])
    have ht1 : '*' ∉ t := fun m => h1 (List.mem_cons_of_mem c m)
    by_cases hn : c = '\n'
    · subst hn
      cases e : (t ++ x) with
      | nil => simp [boldClose, e]
      | cons c2 r => simp [boldClose, e]
    · have ht2 : '\n' ∈ t := by
        rcases List.mem_cons.mp h2 with e | m
        · exact absurd e.symm hn
        · exact m
      cases e : (t ++ x) with
      | nil =>
        have : t = [] := (List.append_eq_nil.mp e).1
        rw [this] at ht2
        exact absurd ht2 (List.not_mem_nil _)
      | cons c2 r =>
        simp only [List.cons_append, e, boldClose, hc, hn, false_and, if_neg, if_false]
        rw [← e, ih ht1 ht2]
        simp [hn]

theorem boldGo_no_star_append_stars (l : Str) (h : '*' ∉ l) :
    ∀ f, l.length + 2 ≤ f → boldGo f (l ++ ['*', '*']) = l ++ ['*', '*'] := by
  induction l with
  | nil =>
    intro f hf
    match f, hf with
    | f' + 2, _ => simp [boldGo, boldClose, boldGo_nil]
  | cons c t ih =>
    intro f hf
    match f, hf with
    | f' + 1, hf =>
      have hc : c ≠ '*' := fun e => h (by simp [e])
      have ht : '*' ∉ t := fun m => h (List.mem_cons_of_mem c m)
      rw [List.cons_append, boldGo_cons_ne f' c (t ++ ['*', '*']) hc,
        ih ht f' (by simp at hf ⊢; omega)]

theorem italicGo_cons_ne (f : ℕ) (c : Char) (t : Str) (h : c ≠ '*') :
    italicGo (f + 1) (c :: t) = c :: italicGo f t := by
  simp [italicGo, h]

theorem italicGo_no_star (l : Str) (h : '*' ∉ l) :
    ∀ f, l.length ≤ f → italicGo f l = l := by
  induction l with
  | nil => intro f _; exact italicGo_nil f
  | cons c t ih =>
    intro f hf
    cases f with
    | zero => simp at hf
    | succ f' =>
      have hc : c ≠ '*' := fun e => h (by simp [e])
      have ht : '*' ∉ t := fun m => h (List.mem_cons_of_mem c m)
      rw [italicGo_cons_ne f' c t hc, ih ht f' (by simpa using hf)]

theorem italicGo_no_star_append_stars (l : Str) (h : '*' ∉ l) :
    ∀ f, l.length + 2 ≤ f → italicGo f (l ++ ['*', '*']) = l := by
  induction l with
  | nil =>
    intro f hf
    match f, hf with
    | f' + 1, _ => simp [italicGo, italicClose, italicGo_nil]
  | cons c t ih =>
    intro f hf
    match f, hf with
    | f' + 1, hf =>
      have hc : c ≠ '*' := fun e => h (by simp [e])
      have ht : '*' ∉ t := fun m => h (List.mem_cons_of_mem c m)
      rw [List.cons_append, italicGo_cons_ne f' c (t ++ ['*', '*']) hc,
        ih ht f' (by simp at hf ⊢; omega)]

theorem clean_wrap_no_star (x : Str) (h : '*' ∉ x) :
    italicSub (boldSub (strL "**" ++ x ++ strL "**")) = italicSub (boldSub x) := by
  have hx2 : strL "**" ++ x ++ strL "**" = '*' :: '*' :: (x ++ ['*', '*']) := by
    simp [strL]
  have hbx : boldSub x = x := boldGo_no_star x h x.length le_rfl
  have hix : italicSub x = x := italicGo_no_star x h x.length le_rfl
  have hlen : ('*' :: '*' :: (x ++ ['*', '*'])).length = x.length + 4 := by
    simp
  rw [hx2, hbx, hix]
  by_cases hn : '\n' ∈ x
  · -- the bold pass finds no match: the opening pair has no closing pair
    -- in its line, and the trailing pair has nothing after it
    have hb : boldSub ('*' :: '*' :: (x ++ ['*', '*'])) = '*' :: '*' :: (x ++ ['*', '*']) := by
      cases x with
      | nil => exact absurd hn (List.not_mem_nil _)
      | cons c t =>
        have hc : c ≠ '*' := fun e => h (by simp [e])
        unfold boldSub
        rw [hlen]
        show boldGo (((c :: t).length + 3) + 1) ('*' :: '*' :: ((c :: t) ++ ['*', '*'])) = _
        rw [show boldGo (((c :: t).length + 3) + 1) ('*' :: '*' :: ((c :: t) ++ ['*', '*']))
            = (match boldClose ((c :: t) ++ ['*', '*']) with
               | some (g, r) => g ++ boldGo ((c :: t).length + 3) r
               | none => '*' :: boldGo ((c :: t).length + 3) ('*' :: ((c :: t) ++ ['*', '*'])))
          from by simp [boldGo]]
        rw [boldClose_no_star_with_nl (c :: t) h hn ['*', '*']]
        show '*' :: boldGo (((c :: t).length + 2) + 1) ('*' :: (c :: (t ++ ['*', '*']))) = _
        rw [show boldGo (((c :: t).length + 2) + 1) ('*' :: (c :: (t ++ ['*', '*'])))
            = '*' :: boldGo ((c :: t).length + 2) (c :: (t ++ ['*', '*']))
          from by simp [boldGo, hc]]
        rw [show c :: (t ++ ['*', '*']) = (c :: t) ++ ['*', '*'] from rfl]
        rw [boldGo_no_star_append_stars (c :: t) h ((c :: t).length + 2) le_rfl]
    rw [hb]
    -- the italic pass deletes the leading pair and then the trailing pair
    unfold italicSub
    rw [hlen]
    show italicGo ((x.length + 3) + 1) ('*' :: ('*' :: (x ++ ['*', '*']))) = x
    rw [show italicGo ((x.length + 3) + 1) ('*' :: ('*' :: (x ++ ['*', '*'])))
        = [] ++ italicGo (x.length + 3) (x ++ ['*', '*'])
      from by simp [italicGo, italicClose]]
    rw [List.nil_append]
    exact italicGo_no_star_append_stars x h (x.length + 3) (by omega)
  · -- no newline: the bold pass matches the whole wrapped string,
    -- leaving exactly x
    have hb : boldSub ('*' :: '*' :: (x ++ ['*', '*'])) = x := by
      unfold boldSub
      rw [hlen]
      show boldGo ((x.length + 3) + 1) ('*' :: '*' :: (x ++ ['*', '*'])) = x
      rw [show boldGo ((x.length + 3) + 1) ('*' :: '*' :: (x ++ ['*', '*']))
          = (match boldClose (x ++ ['*', '*']) with
             | some (g, r) => g ++ boldGo (x.length + 3) r
             | none => '*' :: boldGo (x.length + 3) ('*' :: (x ++ ['*', '*'])))
        from by simp [boldGo]]
      rw [boldClose_no_star_no_nl x h hn]
      simp [boldGo_nil]
    rw [hb, hix]

/-- C4 amended: for every text containing no asterisk, the word count is
invariant under emphasis styling: `count_words (** x **) = count_words x`.
(The unrestricted claim fails; see the counterexample with an asterisk and a
newline inside the wrapped text.) -/
theorem count_words_emphasis_no_star (x : Str) (h : '*' ∉ x) :
    count_words (strL "**" ++ x ++ strL "**") = count_words x := by
  unfold count_words cleanMarkdown
  rw [clean_wrap_no_star x h]

/-- C4 witness: the amended invariance at a concrete star-free text. -/
theorem count_words_emphasis_no_star_witness :
    ('*' ∉ strL "hello world") ∧
    count_words (strL "**" ++ strL "hello world" ++ strL "**") = count_words (strL "hello world") :=
  ⟨by decide, count_words_emphasis_no_star (strL "hello world") (by decide)⟩
